import Mathlib

/-!
Shallow embedding of `src/src/automatic_watering_system.ino` (the sketch whose
line numbers the claims cite: the first 158-line variant in that file).

Modelling conventions:
* C `int` / `long` values are modelled as `Int`; along every reachable path of
  the embedded functions the intermediate values fit comfortably inside the
  16-bit `int` / 32-bit `long` of the AVR target, so no wrap-around modelling
  is needed for them.
* C `unsigned long` millisecond timestamps are modelled as `Nat` < 2^32, and
  the unsigned subtraction `now - last` of the sketch is modelled explicitly
  as subtraction modulo 2^32 (`usub32`).
* C integer division truncates toward zero, which is `Int.tdiv`.
* The global sample array `int samples[AVERAGE_SAMPLES]` is a `List Int`
  (length 10, zero-initialised like a C global); `samples[i] = v` is
  `List.set`, and `for (i = 0; i < count; i++) total += samples[i]` is the sum
  of `List.take count`.
* `analogRead` results are inputs to the step functions.
-/

namespace Watering

/-- Modulus `2^32` for `unsigned long` arithmetic. -/
def U32 : Nat := 2 ^ 32

/-- `now - last` on `unsigned long` operands (both < 2^32): wrap-around
subtraction modulo 2^32, as performed by the sketch's `now - lastSampleMs`
and `now - lastPumpChangeMs`. -/
def usub32 (a b : Nat) : Nat := (a + U32 - b % U32) % U32

/-- `const bool RELAY_ACTIVE_LOW = true;` (line 23). -/
def RELAY_ACTIVE_LOW : Bool := true

/-- `const int dryValue = 850;` (line 29). -/
def dryValue : Int := 850

/-- `const int wetValue = 420;` (line 30). -/
def wetValue : Int := 420

/-- `const int DRY_THRESHOLD_PERCENT = 35;` (line 33). -/
def DRY_THRESHOLD_PERCENT : Int := 35

/-- `const int WET_THRESHOLD_PERCENT = 55;` (line 34). -/
def WET_THRESHOLD_PERCENT : Int := 55

/-- `const unsigned long SAMPLE_INTERVAL_MS = 500;` (line 37). -/
def SAMPLE_INTERVAL_MS : Nat := 500

/-- `const unsigned long MIN_PUMP_RUN_MS = 5000;` (line 38). -/
def MIN_PUMP_RUN_MS : Nat := 5000

/-- `const unsigned long PUMP_COOLDOWN_MS = 30000;` (line 39). -/
def PUMP_COOLDOWN_MS : Nat := 30000

/-- `const uint8_t AVERAGE_SAMPLES = 10;` (line 42). -/
def AVERAGE_SAMPLES : Nat := 10

/-- Arduino's `constrain(amt, low, high)` macro:
`((amt)<(low)?(low):((amt)>(high)?(high):(amt)))`. -/
def constrain (x lo hi : Int) : Int :=
  if x < lo then lo else if x > hi then hi else x

/-- Arduino's `map(x, in_min, in_max, out_min, out_max)`:
`(x - in_min) * (out_max - out_min) / (in_max - in_min) + out_min`,
computed in `long` with C's truncating division. -/
def map (x inMin inMax outMin outMax : Int) : Int :=
  Int.tdiv ((x - inMin) * (outMax - outMin)) (inMax - inMin) + outMin

/-- `moisturePercentFromRaw` (lines 51-58) with the calibration globals
`dryValue` / `wetValue` generalised to parameters `dry` / `wet` (the spec's
`toPercent(raw, bounds)`; the sketch reads them from globals fixed at start):

    rawValue = constrain(rawValue, wetValue, dryValue);
    long percent = map(rawValue, dryValue, wetValue, 0, 100);
    return (int)constrain(percent, 0, 100);
-/
def moisturePercentFromRawB (dry wet rawValue : Int) : Int :=
  let rawValue' := constrain rawValue wet dry
  let percent := map rawValue' dry wet 0 100
  constrain percent 0 100

/-- `moisturePercentFromRaw` (lines 51-58) exactly as compiled: the
calibration bounds are the constant globals. -/
def moisturePercentFromRaw (rawValue : Int) : Int :=
  moisturePercentFromRawB dryValue wetValue rawValue

/-- `setRelay` (lines 60-66), generalised over the `RELAY_ACTIVE_LOW`
configuration constant; returns the digital level written to `RELAY_PIN`
(`true` = HIGH, `false` = LOW). -/
def setRelayLevel (activeLow turnOn : Bool) : Bool :=
  if activeLow then
    (if turnOn then false else true)
  else
    (if turnOn then true else false)

/-- The whole mutable global state of the sketch (lines 43-49) plus the two
output lines driven by `digitalWrite`. -/
structure SysState where
  samples : List Int
  sampleIndex : Nat
  sampleBufferFull : Bool
  pumpOn : Bool
  lastSampleMs : Nat
  lastPumpChangeMs : Nat
  relayLevel : Bool
  ledLevel : Bool
  deriving Repr, DecidableEq

/-- `setPumpState` (lines 68-74), parameterised by the relay polarity and the
current `millis()` value `now`. -/
def setPumpState (activeLow : Bool) (turnOn : Bool) (now : Nat) (s : SysState) :
    SysState :=
  { s with
    pumpOn := turnOn
    lastPumpChangeMs := now % U32
    relayLevel := setRelayLevel activeLow turnOn
    ledLevel := turnOn }

/-- `addSample` (lines 76-84):

    samples[sampleIndex] = rawValue;
    sampleIndex++;
    if (sampleIndex >= AVERAGE_SAMPLES) { sampleIndex = 0; sampleBufferFull = true; }
-/
def addSample (rawValue : Int) (s : SysState) : SysState :=
  let samples' := s.samples.set s.sampleIndex rawValue
  let idx := s.sampleIndex + 1
  if idx ≥ AVERAGE_SAMPLES then
    { s with samples := samples', sampleIndex := 0, sampleBufferFull := true }
  else
    { s with samples := samples', sampleIndex := idx }

/-- `getAverageRaw` (lines 86-97); `analogNow` is what `analogRead` would
return on the zero-sample fallback path:

    uint8_t count = sampleBufferFull ? AVERAGE_SAMPLES : sampleIndex;
    if (count == 0) return analogRead(SOIL_SENSOR_PIN);
    long total = 0;
    for (uint8_t i = 0; i < count; i++) total += samples[i];
    return (int)(total / count);
-/
def getAverageRaw (s : SysState) (analogNow : Int) : Int :=
  let count := if s.sampleBufferFull then AVERAGE_SAMPLES else s.sampleIndex
  if count = 0 then analogNow
  else Int.tdiv (s.samples.take count).sum (Int.ofNat count)

/-- The state of the C globals when `main` starts: the global arrays and
scalars are zero-initialised, and the output lines are modelled as LOW. -/
def initState : SysState :=
  { samples := List.replicate AVERAGE_SAMPLES 0
    sampleIndex := 0
    sampleBufferFull := false
    pumpOn := false
    lastSampleMs := 0
    lastPumpChangeMs := 0
    relayLevel := false
    ledLevel := false }

/-- `setup` (lines 110-127), generalised over the relay polarity: drives the
outputs OFF via `setPumpState(false)` at time `now0`, then primes the average
buffer with ten `analogRead` results `reads 0 .. reads 9`. -/
def setup (activeLow : Bool) (now0 : Nat) (reads : Nat → Int) : SysState :=
  let s := setPumpState activeLow false now0 initState
  (List.range AVERAGE_SAMPLES).foldl (fun t i => addSample (reads i) t) s

/-- One invocation of `loop` (lines 129-158) at `millis() = now`, where
`analogRead` returns `raw`. -/
def loopStep (now : Nat) (raw : Int) (s : SysState) : SysState :=
  if usub32 now s.lastSampleMs < SAMPLE_INTERVAL_MS then s
  else
    let s1 := { s with lastSampleMs := now % U32 }
    let s2 := addSample raw s1
    let averageRaw := getAverageRaw s2 raw
    let moisturePercent := moisturePercentFromRaw averageRaw
    let elapsed := usub32 now s2.lastPumpChangeMs
    if ¬ s2.pumpOn then
      if elapsed ≥ PUMP_COOLDOWN_MS ∧ moisturePercent ≤ DRY_THRESHOLD_PERCENT then
        setPumpState RELAY_ACTIVE_LOW true now s2
      else s2
    else
      if elapsed ≥ MIN_PUMP_RUN_MS ∧ moisturePercent ≥ WET_THRESHOLD_PERCENT then
        setPumpState RELAY_ACTIVE_LOW false now s2
      else s2

/-- The moisture percentage that `loop` computes on a non-early-return tick
with sensor reading `raw` from state `s`. -/
def loopMoisture (raw : Int) (s : SysState) : Int :=
  moisturePercentFromRaw (getAverageRaw (addSample raw s) raw)

/-- Feeding a list of raw samples through `addSample`, oldest first. -/
def feedSamples (vs : List Int) (s : SysState) : SysState :=
  vs.foldl (fun t v => addSample v t) s

/-- The sampler state reached from `initState` after feeding the samples
`us` (for `us.length ≤ AVERAGE_SAMPLES`). -/
def filledState (us : List Int) : SysState :=
  { initState with
    samples := us ++ List.replicate (AVERAGE_SAMPLES - us.length) 0
    sampleIndex := us.length % AVERAGE_SAMPLES
    sampleBufferFull := decide (AVERAGE_SAMPLES ≤ us.length) }

/-! Basic lemmas about the embedded operations. -/

theorem constrain_mem (x lo hi : Int) (h : lo ≤ hi) :
    lo ≤ constrain x lo hi ∧ constrain x lo hi ≤ hi := by
  simp only [constrain]; split_ifs <;> omega

theorem constrain_eq_of_mem {x lo hi : Int} (h1 : lo ≤ x) (h2 : x ≤ hi) :
    constrain x lo hi = x := by
  simp only [constrain]; split_ifs <;> omega

theorem constrain_mono {lo hi : Int} (h : lo ≤ hi) {x y : Int} (hxy : x ≤ y) :
    constrain x lo hi ≤ constrain y lo hi := by
  simp only [constrain]; split_ifs <;> omega

theorem addSample_pumpOn (v : Int) (s : SysState) :
    (addSample v s).pumpOn = s.pumpOn := by
  simp only [addSample]; split <;> rfl

theorem addSample_lastPumpChangeMs (v : Int) (s : SysState) :
    (addSample v s).lastPumpChangeMs = s.lastPumpChangeMs := by
  simp only [addSample]; split <;> rfl

theorem addSample_relayLevel (v : Int) (s : SysState) :
    (addSample v s).relayLevel = s.relayLevel := by
  simp only [addSample]; split <;> rfl

theorem addSample_ledLevel (v : Int) (s : SysState) :
    (addSample v s).ledLevel = s.ledLevel := by
  simp only [addSample]; split <;> rfl

theorem addSample_length (v : Int) (s : SysState) :
    (addSample v s).samples.length = s.samples.length := by
  simp only [addSample]; split <;> simp

theorem addSample_lastSampleMs_free (v : Int) (s : SysState) (t : Nat) :
    addSample v { s with lastSampleMs := t } =
      { addSample v s with lastSampleMs := t } := by
  simp only [addSample]; split <;> rfl

theorem getAverageRaw_lastSampleMs_free (s : SysState) (t : Nat) (a : Int) :
    getAverageRaw { s with lastSampleMs := t } a = getAverageRaw s a := rfl

theorem foldl_addSample_outputs (g : Nat → Int) (l : List Nat) (s : SysState) :
    (l.foldl (fun t i => addSample (g i) t) s).pumpOn = s.pumpOn ∧
    (l.foldl (fun t i => addSample (g i) t) s).relayLevel = s.relayLevel ∧
    (l.foldl (fun t i => addSample (g i) t) s).ledLevel = s.ledLevel := by
  induction l generalizing s with
  | nil => exact ⟨rfl, rfl, rfl⟩
  | cons a l ih =>
    have h := ih (addSample (g a) s)
    simp only [List.foldl_cons]
    exact ⟨h.1.trans (addSample_pumpOn _ _),
      h.2.1.trans (addSample_relayLevel _ _),
      h.2.2.trans (addSample_ledLevel _ _)⟩

/-! Theorems settling the claims. -/

/-- Claim C1, code evaluation at the failing input: with invalid calibration
bounds dryRaw = 400 ≤ wetRaw = 420 substituted for the calibration globals,
the percentage mapping of lines 51-58 returns 100 — not the 0 the claim
requires — and the sketch contains no error-signalling path at all. -/
theorem moisturePercent_invalid_bounds_returns_100 :
    moisturePercentFromRawB 400 420 100 = 100 := by decide

/-- Claim C5: for every integer raw input, `moisturePercentFromRaw` returns a
value in the closed interval `[0, 100]`. -/
theorem moisturePercent_in_range (r : Int) :
    0 ≤ moisturePercentFromRaw r ∧ moisturePercentFromRaw r ≤ 100 := by
  simp only [moisturePercentFromRaw, moisturePercentFromRawB]
  exact constrain_mem _ 0 100 (by decide)

/-- Claim C6: for every valid calibration (dryRaw > wetRaw), the mapping sends
the endpoint dryRaw to 0 and the endpoint wetRaw to 100. -/
theorem moisturePercent_endpoints (dry wet : Int) (h : wet < dry) :
    moisturePercentFromRawB dry wet dry = 0 ∧
    moisturePercentFromRawB dry wet wet = 100 := by
  constructor
  · simp only [moisturePercentFromRawB]
    rw [constrain_eq_of_mem (le_of_lt h) (le_refl dry)]
    simp [map, Int.sub_self, constrain]
  · simp only [moisturePercentFromRawB]
    rw [constrain_eq_of_mem (le_refl wet) (le_of_lt h)]
    have hne : wet - dry ≠ 0 := by omega
    simp only [map, Int.sub_zero]
    rw [Int.mul_tdiv_cancel_left 100 hne]
    rfl

/-- Claim C6, witness: the shipped calibration 850/420 is valid and maps its
endpoints to 0 and 100. -/
theorem moisturePercent_endpoints_witness :
    moisturePercentFromRawB 850 420 850 = 0 ∧
    moisturePercentFromRawB 850 420 420 = 100 :=
  moisturePercent_endpoints 850 420 (by decide)

/-- Claim C9: immediately after `setup` completes, for both polarity settings,
the pump state is OFF, the relay line is at the level meaning OFF for the
configured polarity (HIGH when active-low, LOW when active-high), and the LED
is LOW. -/
theorem setup_pump_off (activeLow : Bool) (now0 : Nat) (reads : Nat → Int) :
    (setup activeLow now0 reads).pumpOn = false ∧
    (setup activeLow now0 reads).relayLevel = (if activeLow then true else false) ∧
    (setup activeLow now0 reads).ledLevel = false := by
  unfold setup
  have h := foldl_addSample_outputs reads (List.range AVERAGE_SAMPLES)
    (setPumpState activeLow false now0 initState)
  refine ⟨h.1.trans rfl, h.2.1.trans ?_, h.2.2.trans rfl⟩
  cases activeLow <;> rfl

/-- Claim C10: the write cursor is in bounds initially and stays in bounds
across every `addSample`, the buffer length is invariant, the filled flag is
monotone, and the element count read by `getAverageRaw` never exceeds the
buffer length. -/
theorem sampleIndex_invariant :
    (initState.sampleIndex < AVERAGE_SAMPLES ∧
      initState.samples.length = AVERAGE_SAMPLES) ∧
    (∀ (v : Int) (s : SysState),
        s.sampleIndex < AVERAGE_SAMPLES → s.samples.length = AVERAGE_SAMPLES →
        (addSample v s).sampleIndex < AVERAGE_SAMPLES ∧
        (addSample v s).samples.length = AVERAGE_SAMPLES) ∧
    (∀ (v : Int) (s : SysState), s.sampleBufferFull = true →
        (addSample v s).sampleBufferFull = true) ∧
    (∀ s : SysState, s.sampleIndex < AVERAGE_SAMPLES →
        s.samples.length = AVERAGE_SAMPLES →
        (if s.sampleBufferFull then AVERAGE_SAMPLES else s.sampleIndex) ≤
          s.samples.length) := by
  refine ⟨⟨by decide, by decide⟩, ?_, ?_, ?_⟩
  · intro v s h1 h2
    simp only [addSample]
    split
    · constructor
      · show 0 < AVERAGE_SAMPLES
        decide
      · show (s.samples.set s.sampleIndex v).length = AVERAGE_SAMPLES
        simpa using h2
    · next hcond =>
      constructor
      · show s.sampleIndex + 1 < AVERAGE_SAMPLES
        omega
      · show (s.samples.set s.sampleIndex v).length = AVERAGE_SAMPLES
        simpa using h2
  · intro v s h
    simp only [addSample]
    split
    · rfl
    · exact h
  · intro s h1 h2
    split <;> omega

/-- Claim C10, witness: the invariant instantiated on the initial state and
one concrete `addSample`. -/
theorem sampleIndex_invariant_witness :
    (addSample 3 initState).sampleIndex < AVERAGE_SAMPLES ∧
    (addSample 3 initState).samples.length = AVERAGE_SAMPLES :=
  sampleIndex_invariant.2.1 3 initState (by decide) (by decide)

/-- Claim C2: with the pump OFF, a `loop` tick whose elapsed time since the
last pump-state change is strictly below `PUMP_COOLDOWN_MS` never turns the
pump ON, whatever the sensor reads (hence whatever the moisture percentage,
including 0%). -/
theorem cooldown_blocks_turn_on (now : Nat) (raw : Int) (s : SysState)
    (hoff : s.pumpOn = false)
    (hlt : usub32 now s.lastPumpChangeMs < PUMP_COOLDOWN_MS) :
    (loopStep now raw s).pumpOn = false := by
  have hp : (addSample raw { s with lastSampleMs := now % U32 }).pumpOn = false :=
    (addSample_pumpOn _ _).trans hoff
  have he : (addSample raw { s with lastSampleMs := now % U32 }).lastPumpChangeMs
      = s.lastPumpChangeMs := addSample_lastPumpChangeMs _ _
  have hcond : ¬ PUMP_COOLDOWN_MS ≤ usub32 now s.lastPumpChangeMs := by omega
  simp only [loopStep]
  split
  · exact hoff
  · simp [hp, he, hcond]

/-- Claim C2, witness: at elapsed 29999 ms < 30000 ms cooldown with a bone-dry
reading (raw 850, moisture 0%), the pump stays OFF. -/
theorem cooldown_blocks_turn_on_witness :
    (loopStep 29999 850 initState).pumpOn = false :=
  cooldown_blocks_turn_on 29999 850 initState rfl (by decide)

/-- Claim C3: with the pump ON, a `loop` tick whose elapsed time since the
last pump-state change is strictly below `MIN_PUMP_RUN_MS` never turns the
pump OFF, whatever the sensor reads (hence whatever the moisture percentage,
including 100%). -/
theorem minRun_blocks_turn_off (now : Nat) (raw : Int) (s : SysState)
    (hon : s.pumpOn = true)
    (hlt : usub32 now s.lastPumpChangeMs < MIN_PUMP_RUN_MS) :
    (loopStep now raw s).pumpOn = true := by
  have hp : (addSample raw { s with lastSampleMs := now % U32 }).pumpOn = true :=
    (addSample_pumpOn _ _).trans hon
  have he : (addSample raw { s with lastSampleMs := now % U32 }).lastPumpChangeMs
      = s.lastPumpChangeMs := addSample_lastPumpChangeMs _ _
  have hcond : ¬ MIN_PUMP_RUN_MS ≤ usub32 now s.lastPumpChangeMs := by omega
  simp only [loopStep]
  split
  · exact hon
  · simp [hp, he, hcond]

/-- Claim C3, witness: at elapsed 4999 ms < 5000 ms minimum run with a
saturated reading (raw 420, moisture 100%), the pump stays ON. -/
theorem minRun_blocks_turn_off_witness :
    (loopStep 4999 420 { initState with pumpOn := true }).pumpOn = true :=
  minRun_blocks_turn_off 4999 420 { initState with pumpOn := true } rfl (by decide)

/-- Claim C4: when the moisture percentage a tick computes lies strictly
between the dry and wet thresholds, the tick changes neither the pump state
nor the last-change timestamp, from either state and at any elapsed time. -/
theorem deadband_no_transition (now : Nat) (raw : Int) (s : SysState)
    (h1 : DRY_THRESHOLD_PERCENT < loopMoisture raw s)
    (h2 : loopMoisture raw s < WET_THRESHOLD_PERCENT) :
    (loopStep now raw s).pumpOn = s.pumpOn ∧
    (loopStep now raw s).lastPumpChangeMs = s.lastPumpChangeMs := by
  have hmp : moisturePercentFromRaw
      (getAverageRaw (addSample raw { s with lastSampleMs := now % U32 }) raw)
      = loopMoisture raw s := by
    rw [addSample_lastSampleMs_free, getAverageRaw_lastSampleMs_free]
    rfl
  have hc1 : ¬ loopMoisture raw s ≤ DRY_THRESHOLD_PERCENT := by omega
  have hc2 : ¬ WET_THRESHOLD_PERCENT ≤ loopMoisture raw s := by omega
  simp only [loopStep]
  split
  · exact ⟨rfl, rfl⟩
  · rw [hmp]
    simp [hc1, hc2, addSample_pumpOn, addSample_lastPumpChangeMs]

/-- Claim C4, witness: a tick reading 45%-band moisture (raw 635 averages to
50%) from the initial OFF state changes nothing. -/
theorem deadband_no_transition_witness :
    (loopStep 500 635 initState).pumpOn = initState.pumpOn ∧
    (loopStep 500 635 initState).lastPumpChangeMs = initState.lastPumpChangeMs :=
  deadband_no_transition 500 635 initState (by decide) (by decide)

theorem filledState_nil : filledState [] = initState := by decide

theorem addSample_filledState (ws : List Int) (v : Int)
    (h : ws.length < AVERAGE_SAMPLES) :
    addSample v (filledState ws) = filledState (ws ++ [v]) := by
  have hk : ws.length % AVERAGE_SAMPLES = ws.length := Nat.mod_eq_of_lt h
  have hfull : decide (AVERAGE_SAMPLES ≤ ws.length) = false :=
    decide_eq_false (Nat.not_le.mpr h)
  have hsamples : (ws ++ List.replicate (AVERAGE_SAMPLES - ws.length) 0).set ws.length v
      = (ws ++ [v]) ++ List.replicate (AVERAGE_SAMPLES - (ws.length + 1)) 0 := by
    have h10 : AVERAGE_SAMPLES - ws.length
        = (AVERAGE_SAMPLES - (ws.length + 1)) + 1 := by omega
    rw [h10, List.replicate_succ, List.set_append_right _ _ (le_refl _)]
    simp [List.set]
  have hlen : (ws ++ [v]).length = ws.length + 1 := by simp
  simp only [addSample, filledState, hk, hfull]
  split
  · next hge =>
    have h10 : ws.length + 1 = AVERAGE_SAMPLES := by omega
    simp [SysState.mk.injEq, hsamples, hlen, h10]
  · next hge =>
    have hlt : ws.length + 1 < AVERAGE_SAMPLES := by omega
    simp [SysState.mk.injEq, hsamples, hlen, Nat.mod_eq_of_lt hlt,
      decide_eq_false (Nat.not_le.mpr hlt)]

theorem feedSamples_filledState (vs : List Int) :
    ∀ ws : List Int, ws.length + vs.length ≤ AVERAGE_SAMPLES →
      feedSamples vs (filledState ws) = filledState (ws ++ vs) := by
  induction vs with
  | nil => intro ws h; simp [feedSamples]
  | cons v vs ih =>
    intro ws h
    simp only [List.length_cons] at h
    have hlt : ws.length < AVERAGE_SAMPLES := by omega
    simp only [feedSamples, List.foldl_cons]
    rw [addSample_filledState ws v hlt]
    have hrec := ih (ws ++ [v]) (by simp; omega)
    simp only [feedSamples] at hrec
    rw [hrec]
    simp

/-- Claim C8: from the initial state, (i) feeding exactly `AVERAGE_SAMPLES`
identical values `V` makes `getAverageRaw` return `V`; (ii) feeding fewer
values (but at least one) makes it return the truncated arithmetic mean of
exactly the values provided; (iii) with zero samples it returns the direct
immediate sensor reading, performing no division. -/
theorem averaging_correct :
    (∀ (V a : Int),
        getAverageRaw (feedSamples (List.replicate AVERAGE_SAMPLES V) initState) a
          = V) ∧
    (∀ (vs : List Int) (a : Int), 0 < vs.length → vs.length < AVERAGE_SAMPLES →
        getAverageRaw (feedSamples vs initState) a
          = Int.tdiv vs.sum (Int.ofNat vs.length)) ∧
    (∀ a : Int, getAverageRaw initState a = a) := by
  refine ⟨?_, ?_, ?_⟩
  · intro V a
    have hfeed := feedSamples_filledState (List.replicate AVERAGE_SAMPLES V) []
      (by simp)
    rw [filledState_nil] at hfeed
    rw [hfeed]
    simp only [filledState, List.nil_append, List.length_replicate, Nat.sub_self,
      List.replicate_zero, List.append_nil, Nat.mod_self]
    simp [getAverageRaw, List.take_replicate, List.sum_replicate, nsmul_eq_mul]
    exact Int.mul_tdiv_cancel_left V (by decide)
  · intro vs a h0 hlen
    have hfeed := feedSamples_filledState vs [] (by simpa using le_of_lt hlen)
    rw [filledState_nil] at hfeed
    rw [hfeed]
    simp only [filledState, List.nil_append, Nat.mod_eq_of_lt hlen,
      decide_eq_false (Nat.not_le.mpr hlen)]
    simp only [getAverageRaw, Bool.false_eq_true, if_false]
    rw [if_neg (by omega)]
    rw [List.take_left' rfl]
  · intro a
    rfl

/-- Claim C8, witness: feeding the two samples 5 and 7 yields their truncated
mean. -/
theorem averaging_correct_witness :
    getAverageRaw (feedSamples [(5 : Int), 7] initState) 0
      = Int.tdiv ([(5 : Int), 7].sum) (Int.ofNat ([(5 : Int), 7].length)) :=
  averaging_correct.2.1 [5, 7] 0 (by decide) (by decide)

theorem map_inverted_eq_ediv (dry wet r : Int) (hb : wet < dry) (h2 : r ≤ dry) :
    map r dry wet 0 100 = (dry - r) * 100 / (dry - wet) := by
  simp only [map, Int.sub_zero, Int.add_zero]
  rw [show (r - dry) * 100 = -((dry - r) * 100) by ring,
    show wet - dry = -(dry - wet) by ring, Int.neg_tdiv_neg]
  exact Int.tdiv_eq_ediv (by nlinarith) (by omega)

/-- Claim C7: for every valid calibration (dryRaw > wetRaw) and raw inputs
`r1 ≤ r2` inside `[wetRaw, dryRaw]`, the mapped percentage is non-increasing. -/
theorem moisturePercent_antitone (dry wet r1 r2 : Int) (hb : wet < dry)
    (hw : wet ≤ r1) (hr : r1 ≤ r2) (hd : r2 ≤ dry) :
    moisturePercentFromRawB dry wet r2 ≤ moisturePercentFromRawB dry wet r1 := by
  simp only [moisturePercentFromRawB]
  rw [constrain_eq_of_mem (le_trans hw hr) hd, constrain_eq_of_mem hw (le_trans hr hd)]
  apply constrain_mono (by decide)
  rw [map_inverted_eq_ediv dry wet r2 hb hd,
    map_inverted_eq_ediv dry wet r1 hb (le_trans hr hd)]
  apply Int.ediv_le_ediv (by omega)
  nlinarith

/-- Claim C7, witness: with the shipped bounds 850/420, raw 600 maps no higher
than raw 500. -/
theorem moisturePercent_antitone_witness :
    moisturePercentFromRawB 850 420 600 ≤ moisturePercentFromRawB 850 420 500 :=
  moisturePercent_antitone 850 420 500 600 (by decide) (by decide) (by decide)
    (by decide)

end Watering
